import Mathlib

/-!
Verification development for the CelesTrak TLE ingestion script
(`src/script.py`).  The script is embedded shallowly:

* Python `str` values are Lean `String`s; slicing, stripping and the
  numeric conversions `int(...)` / `float(...)` are modelled as total
  Lean functions returning `Option` (Python raising an exception is
  `none`).  Numeric values are exact rationals `ℚ` rather than IEEE
  doubles: every concrete value appearing in the claims is decimal and
  is treated exactly.
* Python `datetime` values are modelled as exact rational day counts
  from 0001-01-01 (the proleptic Gregorian ordinal minus one, plus the
  fractional day); `datetime` arithmetic beyond year 9999 raises in
  Python, modelled by a range guard.
* The pandas dataframe operations of `main` are modelled as list
  operations: `isin`-filtering is list filtering, `drop_duplicates`
  keeping the first occurrence is an accumulator recursion.
-/

namespace Celestrak

/-- Whitespace as stripped by Python `str.strip` and `float` (the subset
that can occur in this data). -/
def isWSChar (c : Char) : Bool := c = ' ' || c = '\t' || c = '\n' || c = '\r'

/-- Python `str.strip` on a character list. -/
def trimChars (cs : List Char) : List Char :=
  ((cs.dropWhile isWSChar).reverse.dropWhile isWSChar).reverse

/-- Python `str.strip`. -/
def pyStrip (s : String) : String := String.mk (trimChars s.data)

/-- Python slicing `s[a:b]` with nonnegative bounds (clamping, never
raising). -/
def pySlice (s : String) (a b : ℕ) : String :=
  String.mk ((s.data.drop a).take (b - a))

/-- ASCII digit test. -/
def isDigitChar (c : Char) : Bool := 48 ≤ c.toNat && c.toNat ≤ 57

/-- Numeric value of an ASCII digit. -/
def digitVal (c : Char) : ℕ := c.toNat - 48

/-- Value of a digit string read left to right. -/
def natOfDigits (cs : List Char) : ℕ :=
  cs.foldl (fun a c => 10 * a + digitVal c) 0

/-- An optional sign followed by a nonempty all-digit run covering the
whole input: the accepting core of Python `int(...)`. -/
def parseSignedDigits (cs : List Char) : Option ℤ :=
  match cs with
  | '+' :: r => if r ≠ [] ∧ r.all isDigitChar then some ((natOfDigits r : ℤ)) else none
  | '-' :: r => if r ≠ [] ∧ r.all isDigitChar then some (-(natOfDigits r : ℤ)) else none
  | r => if r ≠ [] ∧ r.all isDigitChar then some ((natOfDigits r : ℤ)) else none

/-- Python `int(s)`: strip whitespace, optional sign, digits only;
anything else raises (`none`). -/
def pyInt (s : String) : Option ℤ := parseSignedDigits (trimChars s.data)

/-- Mantissa of Python float syntax — `digits [. digits]` or `. digits` —
returning its exact value and the unconsumed remainder. -/
def parseDecimalMantissa (cs : List Char) : Option (ℚ × List Char) :=
  let ip := cs.takeWhile isDigitChar
  let rest := cs.dropWhile isDigitChar
  match rest with
  | '.' :: rest2 =>
      let fp := rest2.takeWhile isDigitChar
      let rest3 := rest2.dropWhile isDigitChar
      if ip = [] ∧ fp = [] then none
      else some ((natOfDigits ip : ℚ) + (natOfDigits fp : ℚ) / (10 : ℚ) ^ fp.length, rest3)
  | _ => if ip = [] then none else some ((natOfDigits ip : ℚ), rest)

/-- Exponent tail of Python float syntax: empty, or `e`/`E` followed by
optionally signed digits consuming the rest of the input. -/
def parseExponentTail (cs : List Char) : Option ℤ :=
  match cs with
  | [] => some 0
  | 'e' :: r => parseSignedDigits r
  | 'E' :: r => parseSignedDigits r
  | _ => none

/-- Optional leading sign of Python float syntax: the sign factor and
the remainder. -/
def parseSign (cs : List Char) : ℚ × List Char :=
  match cs with
  | '+' :: r => (1, r)
  | '-' :: r => (-1, r)
  | r => (1, r)

/-- Python `float(s)` on the grammar fragment
`[ws] [sign] mantissa [(e|E) signed-digits] [ws]` (no `inf`/`nan` and no
underscore separators, which never occur in this data), with the exact
rational value.  An empty or whitespace-only input fails at the
mantissa. -/
def pyFloat (s : String) : Option ℚ :=
  let sgn := parseSign (trimChars s.data)
  match parseDecimalMantissa sgn.2 with
  | none => none
  | some (m, rest) =>
    match parseExponentTail rest with
    | none => none
    | some e => some (sgn.1 * m * (10 : ℚ) ^ e)

/-- HELPER 1 of the script (`parse_bstar`): the B-star drag-term decoder.
If the last two characters of the stripped field contain a sign, they are
the exponent and the preceding characters the mantissa behind an implied
`0.`; otherwise the field is parsed as a plain float.  Any parse failure
inside is swallowed by the script's bare `except`, modelled as `none`. -/
def parse_bstar (bstar_string : String) : Option ℚ :=
  let cs := trimChars bstar_string.data
  let last2 := cs.drop (cs.length - 2)
  if last2.contains '-' || last2.contains '+' then
    match pyFloat (String.mk ('0' :: '.' :: cs.take (cs.length - 2))),
          parseSignedDigits last2 with
    | some m, some e => some (m * (10 : ℚ) ^ e)
    | _, _ => none
  else pyFloat (String.mk cs)

/-- Days from 0001-01-01 to Jan 1 of year `y` in the proleptic Gregorian
calendar (`datetime(y,1,1).toordinal() - 1`). -/
def daysBeforeYear (y : ℕ) : ℕ :=
  365 * (y - 1) + (y - 1) / 4 - (y - 1) / 100 + (y - 1) / 400

/-- Midnight of Jan 1 of year `y` as a rational day count from
0001-01-01: the model of Python `datetime(y, 1, 1)`. -/
def jan1 (y : ℤ) : ℚ := (daysBeforeYear y.toNat : ℚ)

/-- First unrepresentable day number: Python `datetime` overflows at year
10000, whose Jan 1 has day number `daysBeforeYear 10000 = 3652059`. -/
def maxDayNumber : ℚ := 3652059

/-- One decoded TLE record, with the exact fields the script's dict
carries. -/
structure ElementSet where
  norad_id : ℤ
  sat_name : String
  intl_designator : String
  epoch_utc : ℚ
  fetched_at_utc : ℚ
  inclination : ℚ
  raan : ℚ
  eccentricity : ℚ
  arg_perigee : ℚ
  mean_anomaly : ℚ
  mean_motion : ℚ
  b_star_drag : Option ℚ
  rev_number : ℤ
deriving DecidableEq, Repr

/-- HELPER 2 of the script (`parse_tle_pair`): decode one
(line1, line2, name) pair.  The script computes the fields in sequence
inside one `try`; the first failing conversion raises and the whole call
returns `None`, which is the same value as this simultaneous match.  The
final range guard models the `OverflowError` that `datetime` arithmetic
raises beyond its year range (also swallowed by the same `except`). -/
def parse_tle_pair (line1 line2 sat_name : String) (fetched_at : ℚ) :
    Option ElementSet :=
  match pyInt (pySlice line1 2 7), pyInt (pySlice line1 18 20),
        pyFloat (pySlice line1 20 32), pyFloat (pySlice line2 8 16),
        pyFloat (pySlice line2 17 25), pyFloat ("0." ++ pySlice line2 26 33),
        pyFloat (pySlice line2 34 42), pyFloat (pySlice line2 43 51),
        pyFloat (pySlice line2 52 63), pyInt (pySlice line2 63 68) with
  | some norad_id, some epoch_year, some epoch_day, some inclination, some raan,
    some eccentricity, some arg_perigee, some mean_anomaly, some mean_motion,
    some rev_number =>
      let full_year : ℤ := if epoch_year < 57 then 2000 + epoch_year else 1900 + epoch_year
      let epoch_date : ℚ := jan1 full_year + (epoch_day - 1)
      if 0 ≤ epoch_date ∧ epoch_date < maxDayNumber then
        some { norad_id := norad_id
               sat_name := sat_name
               intl_designator := pyStrip (pySlice line1 9 17)
               epoch_utc := epoch_date
               fetched_at_utc := fetched_at
               inclination := inclination
               raan := raan
               eccentricity := eccentricity
               arg_perigee := arg_perigee
               mean_anomaly := mean_anomaly
               mean_motion := mean_motion
               b_star_drag := parse_bstar (pyStrip (pySlice line1 53 61))
               rev_number := rev_number }
      else none
  | _, _, _, _, _, _, _, _, _, _ => none

/-- Floor of a rational as an integer (computable). -/
def ratFloor (q : ℚ) : ℤ := q.num.fdiv (q.den : ℤ)

/-- Gregorian (year, month, day) from a day number counted from
0001-01-01 (civil-from-days arithmetic, loop-free). -/
def civilOfDayNumber (n : ℕ) : ℕ × ℕ × ℕ :=
  let z := n + 306
  let era := z / 146097
  let doe := z % 146097
  let yoe := (doe - doe / 1460 + doe / 36524 - doe / 146096) / 365
  let y := yoe + era * 400
  let doy := doe - (365 * yoe + yoe / 4 - yoe / 100)
  let mp := (5 * doy + 2) / 153
  let d := doy - (153 * mp + 2) / 5 + 1
  let m := if mp < 10 then mp + 3 else mp - 9
  (if m ≤ 2 then y + 1 else y, m, d)

/-- Left-pad a number with zeros to a given width. -/
def padLeftZeros (width : ℕ) (n : ℕ) : String :=
  let s := toString n
  String.mk (List.replicate (width - s.data.length) '0') ++ s

/-- Modelled library behaviour: the canonical timestamp string produced
by `pd.to_datetime(...).astype(str)` on both sides of the fact join —
`YYYY-MM-DD HH:MM:SS[.ffffff]` at microsecond resolution. -/
def canonTimestamp (q : ℚ) : String :=
  let n := (ratFloor q).toNat
  let micro := (ratFloor ((q - (n : ℚ)) * 86400000000)).toNat
  let ymd := civilOfDayNumber n
  let secs := micro / 1000000
  let us := micro % 1000000
  padLeftZeros 4 ymd.1 ++ "-" ++ padLeftZeros 2 ymd.2.1 ++ "-" ++
  padLeftZeros 2 ymd.2.2 ++ " " ++ padLeftZeros 2 (secs / 3600) ++ ":" ++
  padLeftZeros 2 (secs % 3600 / 60) ++ ":" ++ padLeftZeros 2 (secs % 60) ++
  (if us = 0 then "" else "." ++ padLeftZeros 6 us)

/-- The triplet grouping of `main`'s loop
`for i in range(0, len(lines), 3): if i + 2 < len(lines): ...` —
consecutive (name, line1, line2) groups, dropping an incomplete tail. -/
def tripleGroups : List String → List (String × String × String)
  | name :: l1 :: l2 :: rest => (name, l1, l2) :: tripleGroups rest
  | _ => []

/-- The batch-parsing loop of `main`: strip the three lines of each
group, decode it, and collect the successes in order; a failed decode
contributes nothing and the loop continues. -/
def parse_batch (lines : List String) (fetched_at : ℚ) : List ElementSet :=
  (tripleGroups lines).filterMap fun g =>
    parse_tle_pair (pyStrip g.2.1) (pyStrip g.2.2) (pyStrip g.1) fetched_at

/-- One row of the `dim_satellites` projection
`[['norad_id', 'sat_name', 'intl_designator']]`. -/
structure SatelliteDimension where
  norad_id : ℤ
  sat_name : String
  intl_designator : String
deriving DecidableEq, Repr

/-- The column projection of a decoded record to its dimension row. -/
def toDimension (r : ElementSet) : SatelliteDimension :=
  { norad_id := r.norad_id, sat_name := r.sat_name
    intl_designator := r.intl_designator }

/-- `drop_duplicates(subset=['norad_id'])` keeping the first occurrence,
as an accumulator recursion over already-seen ids. -/
def dropDupByNoradId : List SatelliteDimension → List ℤ → List SatelliteDimension
  | [], _ => []
  | d :: rest, seen =>
      if d.norad_id ∈ seen then dropDupByNoradId rest seen
      else d :: dropDupByNoradId rest (d.norad_id :: seen)

/-- The dimension-reconciliation step of `main`:
`new_sats = df[~df['norad_id'].isin(existing_ids)]` followed by the
column projection and `drop_duplicates(subset=['norad_id'])`. -/
def select_new_entities (records : List ElementSet) (existing_ids : List ℤ) :
    List SatelliteDimension :=
  let new_sats := records.filter fun r => decide (r.norad_id ∉ existing_ids)
  dropDupByNoradId (new_sats.map toDimension) []

/-- The composite fact identity key
`str(norad_id) + "_" + str(pd.to_datetime(epoch_utc))`, used identically
on both sides of the reconciliation join. -/
def factKey (norad_id : ℤ) (epoch_utc : ℚ) : String :=
  toString norad_id ++ "_" ++ canonTimestamp epoch_utc

/-- The fact-reconciliation step of `main`:
`fact_telem[~fact_telem['key'].isin(recent_data['key'])]` with the key
column rebuilt on both sides and dropped afterwards. -/
def select_new_facts (records : List ElementSet) (recent_window : List (ℤ × ℚ)) :
    List ElementSet :=
  let recentKeys := recent_window.map fun p => factKey p.1 p.2
  records.filter fun r => !(recentKeys.contains (factKey r.norad_id r.epoch_utc))

/-- The two storage queries `main` performs after parsing, each of which
can raise (`Except.error`): the `dim_satellites` id query and the
3-day recent-window `fact_telemetry` query. -/
structure StorageEnv where
  dim_query : Except Unit (List ℤ)
  fact_window_query : Except Unit (List (ℤ × ℚ))

/-- Which persistence steps of one cycle ran, and with what rows
(`none` = the step never executed). -/
structure CycleOutcome where
  dim_persisted : Option (List SatelliteDimension)
  fact_persisted : Option (List ElementSet)
deriving DecidableEq, Repr

/-- The reconcile-and-persist tail of `main` (after `records` is built):
`if not records: return`; then the dimension query and persist run with
NO surrounding try, so a failure there propagates and nothing later
runs; the fact stage is wrapped in `try/except`, so a window-query
failure only skips fact persistence. -/
def run_ingestion (env : StorageEnv) (records : List ElementSet) : CycleOutcome :=
  if records.isEmpty then { dim_persisted := none, fact_persisted := none }
  else
    match env.dim_query with
    | .error _ => { dim_persisted := none, fact_persisted := none }
    | .ok existing_ids =>
        let dims := select_new_entities records existing_ids
        match env.fact_window_query with
        | .error _ => { dim_persisted := some dims, fact_persisted := none }
        | .ok recent =>
            { dim_persisted := some dims
              fact_persisted := some (select_new_facts records recent) }

/-- The ten conversions of `parse_tle_pair` that must succeed for the
record to be produced (the drag term is absent: its failure is
non-fatal). -/
def requiredFieldsOk (line1 line2 : String) : Bool :=
  (pyInt (pySlice line1 2 7)).isSome && (pyInt (pySlice line1 18 20)).isSome &&
  (pyFloat (pySlice line1 20 32)).isSome && (pyFloat (pySlice line2 8 16)).isSome &&
  (pyFloat (pySlice line2 17 25)).isSome && (pyFloat ("0." ++ pySlice line2 26 33)).isSome &&
  (pyFloat (pySlice line2 34 42)).isSome && (pyFloat (pySlice line2 43 51)).isSome &&
  (pyFloat (pySlice line2 52 63)).isSome && (pyInt (pySlice line2 63 68)).isSome

/-- Whether the reconstructed epoch lands inside the representable
`datetime` range (outside it, `datetime` arithmetic raises and the
record is lost to the same blanket `except`). -/
def epochInRange (line1 : String) : Bool :=
  match pyInt (pySlice line1 18 20), pyFloat (pySlice line1 20 32) with
  | some y, some d =>
      let fy : ℤ := if y < 57 then 2000 + y else 1900 + y
      decide (0 ≤ jan1 fy + (d - 1) ∧ jan1 fy + (d - 1) < maxDayNumber)
  | _, _ => false

/-- A concrete decoded record used by the witnesses, with the given
catalog id, name and epoch. -/
def mkSat (id : ℤ) (name : String) (ep : ℚ) : ElementSet :=
  { norad_id := id, sat_name := name, intl_designator := "24001A"
    epoch_utc := ep, fetched_at_utc := 0, inclination := 53, raan := 120
    eccentricity := 0, arg_perigee := 90, mean_anomaly := 180
    mean_motion := 15, b_star_drag := none, rev_number := 1 }

/-! ### Helper lemmas about the character-level parsers -/

theorem not_ws_of_digit {c : Char} (h : isDigitChar c = true) : isWSChar c = false := by
  simp only [isDigitChar, Bool.and_eq_true, decide_eq_true_eq] at h
  simp only [isWSChar, Bool.or_eq_false_iff, decide_eq_false_iff_not]
  refine ⟨⟨⟨?_, ?_⟩, ?_⟩, ?_⟩ <;> rintro rfl <;> revert h <;> decide

theorem dropWhile_eq_self_of_not {p : Char → Bool} {l : List Char}
    (h : ∀ c ∈ l, p c = false) : l.dropWhile p = l := by
  cases l with
  | nil => rfl
  | cons a t =>
      rw [List.dropWhile_cons_of_neg]
      simp [h a (by simp)]

theorem trimChars_eq_self {cs : List Char}
    (h : ∀ c ∈ cs, isWSChar c = false) : trimChars cs = cs := by
  unfold trimChars
  rw [dropWhile_eq_self_of_not h,
      dropWhile_eq_self_of_not (fun c hc => h c (List.mem_reverse.mp hc)),
      List.reverse_reverse]

theorem takeWhile_eq_self_of_all {p : Char → Bool} {l : List Char}
    (h : l.all p = true) : l.takeWhile p = l := by
  induction l with
  | nil => rfl
  | cons a t ih =>
      simp only [List.all_cons, Bool.and_eq_true] at h
      rw [List.takeWhile_cons_of_pos h.1, ih h.2]

theorem dropWhile_eq_nil_of_all {p : Char → Bool} {l : List Char}
    (h : l.all p = true) : l.dropWhile p = [] := by
  induction l with
  | nil => rfl
  | cons a t ih =>
      simp only [List.all_cons, Bool.and_eq_true] at h
      rw [List.dropWhile_cons_of_pos h.1]
      exact ih h.2

theorem digitVal_le_nine {c : Char} (h : isDigitChar c = true) : digitVal c ≤ 9 := by
  simp only [isDigitChar, Bool.and_eq_true, decide_eq_true_eq] at h
  unfold digitVal
  omega

theorem foldl_digits_bound :
    ∀ (cs : List Char) (a : ℕ), cs.all isDigitChar = true →
      cs.foldl (fun a c => 10 * a + digitVal c) a < (a + 1) * 10 ^ cs.length := by
  intro cs
  induction cs with
  | nil => intro a _; simp
  | cons c t ih =>
      intro a h
      simp only [List.all_cons, Bool.and_eq_true] at h
      have hd : digitVal c ≤ 9 := digitVal_le_nine h.1
      have := ih (10 * a + digitVal c) h.2
      calc (c :: t).foldl (fun a c => 10 * a + digitVal c) a
          = t.foldl (fun a c => 10 * a + digitVal c) (10 * a + digitVal c) := rfl
        _ < (10 * a + digitVal c + 1) * 10 ^ t.length := this
        _ ≤ (a + 1) * 10 ^ (c :: t).length := by
            simp only [List.length_cons, pow_succ]
            nlinarith [Nat.pos_pow_of_pos t.length (by norm_num : 0 < 10)]

theorem natOfDigits_lt {cs : List Char} (h : cs.all isDigitChar = true) :
    natOfDigits cs < 10 ^ cs.length := by
  have := foldl_digits_bound cs 0 h
  simpa [natOfDigits] using this

theorem no_sign_of_all_digits {cs : List Char} (h : cs.all isDigitChar = true) :
    cs.contains '-' = false ∧ cs.contains '+' = false := by
  rw [List.all_eq_true] at h
  constructor <;>
  · rw [← Bool.not_eq_true]
    intro hc
    have := h _ (List.elem_iff.mp hc)
    revert this; decide

theorem parseSign_no_sign {c : Char} {t : List Char} (h1 : c ≠ '+') (h2 : c ≠ '-') :
    parseSign (c :: t) = (1, c :: t) := by
  rw [parseSign.eq_def]
  split
  · rename_i heq; injection heq with h _; exact absurd h h1
  · rename_i heq; injection heq with h _; exact absurd h h2
  · rfl

theorem parseSign_of_digit {c : Char} {t : List Char} (h : isDigitChar c = true) :
    parseSign (c :: t) = (1, c :: t) := by
  refine parseSign_no_sign ?_ ?_ <;> rintro rfl <;> revert h <;> decide

theorem parseSignedDigits_all_digits {m : List Char} (hne : m ≠ [])
    (h : m.all isDigitChar = true) : parseSignedDigits m = some ((natOfDigits m : ℤ)) := by
  rw [parseSignedDigits.eq_def]
  split
  · simp only [List.all_cons, Bool.and_eq_true] at h
    exact absurd h.1 (by decide)
  · simp only [List.all_cons, Bool.and_eq_true] at h
    exact absurd h.1 (by decide)
  · rw [if_pos ⟨hne, h⟩]

theorem parseSignedDigits_neg_digits {m : List Char} (hne : m ≠ [])
    (h : m.all isDigitChar = true) :
    parseSignedDigits ('-' :: m) = some (-(natOfDigits m : ℤ)) := by
  simp [parseSignedDigits, hne, h]

theorem parseSignedDigits_pos_digits {m : List Char} (hne : m ≠ [])
    (h : m.all isDigitChar = true) :
    parseSignedDigits ('+' :: m) = some ((natOfDigits m : ℤ)) := by
  simp [parseSignedDigits, hne, h]

theorem parseDecimalMantissa_digits {m : List Char} (hne : m ≠ [])
    (h : m.all isDigitChar = true) :
    parseDecimalMantissa m = some (((natOfDigits m : ℚ), [])) := by
  unfold parseDecimalMantissa
  rw [takeWhile_eq_self_of_all h, dropWhile_eq_nil_of_all h]
  simp [hne]

theorem parseDecimalMantissa_zero_dot {m : List Char} (h : m.all isDigitChar = true) :
    parseDecimalMantissa ('0' :: '.' :: m) =
      some (((natOfDigits m : ℚ) / (10 : ℚ) ^ m.length, [])) := by
  unfold parseDecimalMantissa
  rw [List.takeWhile_cons_of_pos (by decide : isDigitChar '0' = true),
      List.takeWhile_cons_of_neg (by decide : ¬ isDigitChar '.' = true),
      List.dropWhile_cons_of_pos (by decide : isDigitChar '0' = true),
      List.dropWhile_cons_of_neg (by decide : ¬ isDigitChar '.' = true)]
  simp [takeWhile_eq_self_of_all h, dropWhile_eq_nil_of_all h, natOfDigits, digitVal]

theorem not_ws_all_digits {m : List Char} (h : m.all isDigitChar = true) :
    ∀ c ∈ m, isWSChar c = false :=
  fun c hc => not_ws_of_digit (List.all_eq_true.mp h c hc)

theorem pyFloat_digits {m : List Char} (hne : m ≠ []) (h : m.all isDigitChar = true) :
    pyFloat (String.mk m) = some ((natOfDigits m : ℚ)) := by
  obtain ⟨c, t, rfl⟩ : ∃ c t, m = c :: t := by
    cases m with
    | nil => exact absurd rfl hne
    | cons c t => exact ⟨c, t, rfl⟩
  have hc : isDigitChar c = true := by
    simp only [List.all_cons, Bool.and_eq_true] at h; exact h.1
  unfold pyFloat
  rw [show (String.mk (c :: t)).data = c :: t from rfl,
      trimChars_eq_self (not_ws_all_digits h), parseSign_of_digit hc]
  dsimp only
  rw [parseDecimalMantissa_digits hne h]
  simp [parseExponentTail]

theorem pyFloat_zero_dot {m : List Char} (h : m.all isDigitChar = true) :
    pyFloat (String.mk ('0' :: '.' :: m)) =
      some ((natOfDigits m : ℚ) / (10 : ℚ) ^ m.length) := by
  have hws : ∀ c ∈ ('0' :: '.' :: m), isWSChar c = false := by
    intro c hc
    rcases hc with _ | ⟨_, hc⟩
    · decide
    · rcases hc with _ | ⟨_, hc⟩
      · decide
      · exact not_ws_all_digits h c hc
  unfold pyFloat
  rw [show (String.mk ('0' :: '.' :: m)).data = '0' :: '.' :: m from rfl,
      trimChars_eq_self hws, parseSign_of_digit (by decide)]
  dsimp only
  rw [parseDecimalMantissa_zero_dot h]
  simp [parseExponentTail]

theorem natOfDigits_singleton (d : Char) : natOfDigits [d] = digitVal d := by
  simp [natOfDigits]

theorem parse_bstar_sign_case (m : List Char) (sg d : Char)
    (hm : m.all isDigitChar = true) (hd : isDigitChar d = true)
    (hsg : sg = '-' ∨ sg = '+') :
    parse_bstar (String.mk (m ++ [sg, d])) =
      some ((natOfDigits m : ℚ) / (10 : ℚ) ^ m.length *
            (10 : ℚ) ^ (if sg = '-' then -(digitVal d : ℤ) else (digitVal d : ℤ))) := by
  have hws : ∀ c ∈ m ++ [sg, d], isWSChar c = false := by
    intro c hc
    rcases List.mem_append.mp hc with h1 | h2
    · exact not_ws_all_digits hm c h1
    · simp only [List.mem_cons, List.mem_singleton, List.not_mem_nil] at h2
      rcases h2 with rfl | rfl | h2
      · rcases hsg with rfl | rfl <;> decide
      · exact not_ws_of_digit hd
      · exact absurd h2 (by simp)
  unfold parse_bstar
  rw [show (String.mk (m ++ [sg, d])).data = m ++ [sg, d] from rfl,
      trimChars_eq_self hws]
  dsimp only
  rw [List.length_append, show ([sg, d] : List Char).length = 2 from rfl,
      Nat.add_sub_cancel, List.drop_left, List.take_left]
  have hcond : (([sg, d].contains '-' || [sg, d].contains '+') = true) := by
    rcases hsg with rfl | rfl <;> simp [List.contains_cons]
  rw [if_pos hcond, pyFloat_zero_dot hm]
  rcases hsg with rfl | rfl
  · rw [show ('-' :: [d] : List Char) = '-' :: [d] from rfl,
        parseSignedDigits_neg_digits (by simp) (by simp [hd])]
    simp [natOfDigits_singleton]
  · rw [parseSignedDigits_pos_digits (by simp) (by simp [hd])]
    simp [natOfDigits_singleton]

theorem parse_bstar_plain_digits (m : List Char) (hne : m ≠ [])
    (hm : m.all isDigitChar = true) :
    parse_bstar (String.mk m) = some ((natOfDigits m : ℚ)) := by
  unfold parse_bstar
  rw [show (String.mk m).data = m from rfl, trimChars_eq_self (not_ws_all_digits hm)]
  dsimp only
  have hsub : (m.drop (m.length - 2)).all isDigitChar = true := by
    rw [List.all_eq_true] at hm ⊢
    intro c hc
    exact hm c (List.mem_of_mem_drop hc)
  obtain ⟨h1, h2⟩ := no_sign_of_all_digits hsub
  rw [if_neg (by rw [h1, h2]; simp)]
  exact pyFloat_digits hne hm

/-! ### Shape lemmas for `parse_tle_pair` -/

theorem parse_tle_pair_some_elim {l1 l2 nm : String} {t : ℚ} {r : ElementSet}
    (hp : parse_tle_pair l1 l2 nm t = some r) :
    ∃ nid y d incl ra ecc argp ma mm rev,
      pyInt (pySlice l1 2 7) = some nid ∧
      pyInt (pySlice l1 18 20) = some y ∧
      pyFloat (pySlice l1 20 32) = some d ∧
      pyFloat (pySlice l2 8 16) = some incl ∧
      pyFloat (pySlice l2 17 25) = some ra ∧
      pyFloat ("0." ++ pySlice l2 26 33) = some ecc ∧
      pyFloat (pySlice l2 34 42) = some argp ∧
      pyFloat (pySlice l2 43 51) = some ma ∧
      pyFloat (pySlice l2 52 63) = some mm ∧
      pyInt (pySlice l2 63 68) = some rev ∧
      r = { norad_id := nid, sat_name := nm,
            intl_designator := pyStrip (pySlice l1 9 17),
            epoch_utc := jan1 (if y < 57 then 2000 + y else 1900 + y) + (d - 1),
            fetched_at_utc := t, inclination := incl, raan := ra,
            eccentricity := ecc, arg_perigee := argp, mean_anomaly := ma,
            mean_motion := mm,
            b_star_drag := parse_bstar (pyStrip (pySlice l1 53 61)),
            rev_number := rev } := by
  unfold parse_tle_pair at hp
  split at hp
  · rename_i nid y d incl ra ecc argp ma mm rev h1 h2 h3 h4 h5 h6 h7 h8 h9 h10
    dsimp only at hp
    generalize hfy : (if y < (57 : ℤ) then 2000 + y else 1900 + y) = fy at hp
    split at hp
    · injection hp with hp
      subst hfy
      exact ⟨nid, y, d, incl, ra, ecc, argp, ma, mm, rev,
        h1, h2, h3, h4, h5, h6, h7, h8, h9, h10, hp.symm⟩
    · cases hp
  · cases hp

theorem parse_tle_pair_success (l1 l2 nm : String) (t : ℚ)
    (h : requiredFieldsOk l1 l2 = true) (hr : epochInRange l1 = true) :
    ∃ r, parse_tle_pair l1 l2 nm t = some r ∧
      r.b_star_drag = parse_bstar (pyStrip (pySlice l1 53 61)) := by
  simp only [requiredFieldsOk, Bool.and_eq_true, Option.isSome_iff_exists] at h
  obtain ⟨⟨⟨⟨⟨⟨⟨⟨⟨⟨v1, h1⟩, v2, h2⟩, v3, h3⟩, v4, h4⟩, v5, h5⟩, v6, h6⟩,
    v7, h7⟩, v8, h8⟩, v9, h9⟩, v10, h10⟩ := h
  simp only [epochInRange, h2, h3] at hr
  have hguard := of_decide_eq_true hr
  refine ⟨{ norad_id := v1, sat_name := nm,
            intl_designator := pyStrip (pySlice l1 9 17),
            epoch_utc := jan1 (if v2 < 57 then 2000 + v2 else 1900 + v2) + (v3 - 1),
            fetched_at_utc := t, inclination := v4, raan := v5, eccentricity := v6,
            arg_perigee := v7, mean_anomaly := v8, mean_motion := v9,
            b_star_drag := parse_bstar (pyStrip (pySlice l1 53 61)),
            rev_number := v10 }, ?_, rfl⟩
  unfold parse_tle_pair
  rw [h1, h2, h3, h4, h5, h6, h7, h8, h9, h10]
  dsimp only
  rw [if_pos hguard]

theorem pyFloat_zero_dot_str {s : String} (h : s.data.all isDigitChar = true) :
    pyFloat ("0." ++ s) = some ((natOfDigits s.data : ℚ) / (10 : ℚ) ^ s.data.length) := by
  have hdata : ("0." ++ s).data = '0' :: '.' :: s.data := by
    rw [String.data_append]; rfl
  have hcongr : pyFloat ("0." ++ s) = pyFloat (String.mk ('0' :: '.' :: s.data)) := by
    unfold pyFloat
    rw [hdata]
  rw [hcongr, pyFloat_zero_dot h]

theorem takeWhile_append_all {p : Char → Bool} {l1 l2 : List Char}
    (h : l1.all p = true) :
    (l1 ++ l2).takeWhile p = l1 ++ l2.takeWhile p := by
  induction l1 with
  | nil => rfl
  | cons a t ih =>
      simp only [List.all_cons, Bool.and_eq_true] at h
      simp [List.takeWhile_cons_of_pos h.1, ih h.2]

theorem dropWhile_append_all {p : Char → Bool} {l1 l2 : List Char}
    (h : l1.all p = true) :
    (l1 ++ l2).dropWhile p = l2.dropWhile p := by
  induction l1 with
  | nil => rfl
  | cons a t ih =>
      simp only [List.all_cons, Bool.and_eq_true] at h
      simp only [List.cons_append, List.dropWhile_cons_of_pos h.1]
      exact ih h.2

theorem parseDecimalMantissa_digits_dot {a b : List Char} (hane : a ≠ [])
    (ha : a.all isDigitChar = true) (hb : b.all isDigitChar = true) :
    parseDecimalMantissa (a ++ '.' :: b) =
      some ((natOfDigits a : ℚ) + (natOfDigits b : ℚ) / (10 : ℚ) ^ b.length, []) := by
  unfold parseDecimalMantissa
  rw [takeWhile_append_all ha, dropWhile_append_all ha,
      List.takeWhile_cons_of_neg (by decide : ¬ isDigitChar '.' = true),
      List.dropWhile_cons_of_neg (by decide : ¬ isDigitChar '.' = true)]
  simp [takeWhile_eq_self_of_all hb, dropWhile_eq_nil_of_all hb, hane]

theorem parseDecimalMantissa_digits_dot_exp {a b : List Char} (d : Char)
    (hane : a ≠ []) (ha : a.all isDigitChar = true) (hb : b.all isDigitChar = true) :
    parseDecimalMantissa (a ++ '.' :: (b ++ ['e', d])) =
      some ((natOfDigits a : ℚ) + (natOfDigits b : ℚ) / (10 : ℚ) ^ b.length,
            'e' :: [d]) := by
  unfold parseDecimalMantissa
  rw [takeWhile_append_all ha, dropWhile_append_all ha,
      List.takeWhile_cons_of_neg (by decide : ¬ isDigitChar '.' = true),
      List.dropWhile_cons_of_neg (by decide : ¬ isDigitChar '.' = true)]
  simp [takeWhile_append_all hb, dropWhile_append_all hb,
        List.takeWhile_cons, List.dropWhile_cons,
        show isDigitChar 'e' = false from by decide, hane]

theorem pyFloat_eval_decimal (s : String) (a b : List Char)
    (h : trimChars s.data = a ++ '.' :: b) (hane : a ≠ [])
    (ha : a.all isDigitChar = true) (hb : b.all isDigitChar = true) :
    pyFloat s = some ((natOfDigits a : ℚ) + (natOfDigits b : ℚ) / (10 : ℚ) ^ b.length) := by
  obtain ⟨c, tl, rfl⟩ : ∃ c tl, a = c :: tl := by
    cases a with
    | nil => exact absurd rfl hane
    | cons c tl => exact ⟨c, tl, rfl⟩
  have hc : isDigitChar c = true := by
    simp only [List.all_cons, Bool.and_eq_true] at ha; exact ha.1
  unfold pyFloat
  rw [h, show ((c :: tl) ++ '.' :: b) = c :: (tl ++ '.' :: b) from rfl,
      parseSign_of_digit hc]
  dsimp only
  rw [show (c :: (tl ++ '.' :: b)) = (c :: tl) ++ '.' :: b from rfl,
      parseDecimalMantissa_digits_dot hane ha hb]
  simp [parseExponentTail]

theorem pyFloat_eval_decimal_exp (s : String) (a b : List Char) (d : Char)
    (h : trimChars s.data = a ++ '.' :: (b ++ ['e', d])) (hane : a ≠ [])
    (ha : a.all isDigitChar = true) (hb : b.all isDigitChar = true)
    (hd : isDigitChar d = true) :
    pyFloat s = some (((natOfDigits a : ℚ) + (natOfDigits b : ℚ) / (10 : ℚ) ^ b.length) *
      (10 : ℚ) ^ ((digitVal d : ℤ))) := by
  obtain ⟨c, tl, rfl⟩ : ∃ c tl, a = c :: tl := by
    cases a with
    | nil => exact absurd rfl hane
    | cons c tl => exact ⟨c, tl, rfl⟩
  have hc : isDigitChar c = true := by
    simp only [List.all_cons, Bool.and_eq_true] at ha; exact ha.1
  unfold pyFloat
  rw [h, show ((c :: tl) ++ '.' :: (b ++ ['e', d])) = c :: (tl ++ '.' :: (b ++ ['e', d])) from rfl,
      parseSign_of_digit hc]
  dsimp only
  rw [show (c :: (tl ++ '.' :: (b ++ ['e', d]))) = (c :: tl) ++ '.' :: (b ++ ['e', d]) from rfl,
      parseDecimalMantissa_digits_dot_exp d hane ha hb]
  dsimp only
  rw [show parseExponentTail ('e' :: [d]) = parseSignedDigits [d] from rfl,
      parseSignedDigits_all_digits (by simp) (by simp [hd]), natOfDigits_singleton]
  simp

/-! ### Claim C3: the drag-term decoding rule -/

/-- C3 counterexample: the field `"00000 0"` has no sign among its final
two characters, yet it does NOT decode as a plain decimal — the inner
space makes the plain-decimal conversion raise and the decoder yields
nothing, contradicting the claim that such variants parse as plain
decimals. -/
theorem C3_counterexample :
    ((trimChars ("00000 0" : String).data).drop
        ((trimChars ("00000 0" : String).data).length - 2)).contains '-' = false ∧
    ((trimChars ("00000 0" : String).data).drop
        ((trimChars ("00000 0" : String).data).length - 2)).contains '+' = false ∧
    parse_bstar "00000 0" = none := by
  decide

/-- C3 (amended): if the final two characters of the (stripped) field
contain a sign, they are the exponent and the preceding digit characters
are the mantissa behind an implied leading `0.`, giving
`0.mantissa × 10^±digit`; a signless all-digit field decodes as a plain
decimal; but a signless field that is not a plain decimal (such as
`"00000 0"`, with an inner space) yields no value at all. -/
theorem C3_drag_term_decoding :
    (∀ (m : List Char) (sg d : Char), m.all isDigitChar = true →
        isDigitChar d = true → (sg = '-' ∨ sg = '+') →
        parse_bstar (String.mk (m ++ [sg, d])) =
          some ((natOfDigits m : ℚ) / (10 : ℚ) ^ m.length *
            (10 : ℚ) ^ (if sg = '-' then -(digitVal d : ℤ) else (digitVal d : ℤ)))) ∧
    (∀ m : List Char, m ≠ [] → m.all isDigitChar = true →
        parse_bstar (String.mk m) = some ((natOfDigits m : ℚ))) ∧
    parse_bstar "00000 0" = none := by
  refine ⟨fun m sg d hm hd hsg => parse_bstar_sign_case m sg d hm hd hsg,
          fun m hne hm => parse_bstar_plain_digits m hne hm, by decide⟩

/-- C3 witness: the two exponent examples of the claim, decoded to their
exact values by the amended theorem. -/
theorem C3_witness :
    parse_bstar "44559-4" =
      some ((44559 : ℚ) / 100000 * (10 : ℚ) ^ (-(4 : ℤ))) ∧
    parse_bstar "12345+1" =
      some ((12345 : ℚ) / 100000 * (10 : ℚ) ^ ((1 : ℤ))) := by
  constructor
  · have h := C3_drag_term_decoding.1 ['4', '4', '5', '5', '9'] '-' '4'
      (by decide) (by decide) (Or.inl rfl)
    rw [show natOfDigits ['4', '4', '5', '5', '9'] = 44559 from by decide,
        show digitVal '4' = 4 from by decide] at h
    exact h.trans (by norm_num)
  · have h := C3_drag_term_decoding.1 ['1', '2', '3', '4', '5'] '+' '1'
      (by decide) (by decide) (Or.inr rfl)
    rw [show natOfDigits ['1', '2', '3', '4', '5'] = 12345 from by decide,
        show digitVal '1' = 1 from by decide] at h
    exact h.trans (by rw [if_neg (by decide : ¬ ('+' : Char) = '-')]; norm_num)

/-! ### Claim C4: Y2K rule and epoch reconstruction -/

/-- C4: for every successfully decoded record, the record's epoch is
midnight of Jan 1 of `full_year` plus `(day_of_year − 1)` days, with
`full_year = 2000 + y` when `y < 57` and `1900 + y` otherwise — the
boundary sits exactly at 57. -/
theorem C4_y2k_epoch (l1 l2 nm : String) (t : ℚ) (r : ElementSet) (y : ℤ) (d : ℚ)
    (hp : parse_tle_pair l1 l2 nm t = some r)
    (hy : pyInt (pySlice l1 18 20) = some y)
    (hd : pyFloat (pySlice l1 20 32) = some d) :
    r.epoch_utc = jan1 (if y < 57 then 2000 + y else 1900 + y) + (d - 1) ∧
    (y < 57 → r.epoch_utc = jan1 (2000 + y) + (d - 1)) ∧
    (57 ≤ y → r.epoch_utc = jan1 (1900 + y) + (d - 1)) := by
  obtain ⟨nid, y', d', incl, ra, ecc, argp, ma, mm, rev,
    h1, h2, h3, h4, h5, h6, h7, h8, h9, h10, hrec⟩ := parse_tle_pair_some_elim hp
  have hy' : y' = y := by
    have := hy.symm.trans h2
    injection this with h
    exact h.symm
  have hd' : d' = d := by
    have := hd.symm.trans h3
    injection this with h
    exact h.symm
  subst hy'
  subst hd'
  rw [hrec]
  refine ⟨rfl, fun hlt => ?_, fun hge => ?_⟩
  · rw [if_pos hlt]
  · rw [if_neg (not_lt.mpr hge)]

set_option maxRecDepth 4000 in
/-- C4 witness: epoch year 56 resolves to 2056 and epoch year 57 to
1957, at day-of-year 2.5 of the concrete lines. -/
theorem C4_y2k_epoch_witness :
    Option.map ElementSet.epoch_utc
      (parse_tle_pair "1 00100U 24001A   56002.50000000"
        "2 00100  51.6400 208.9163 0006317  69.9862  25.2906 15.493904007" "S" 0) =
      some ((750573 : ℚ) + (5/2 - 1)) ∧
    Option.map ElementSet.epoch_utc
      (parse_tle_pair "1 00100U 24001A   57002.50000000"
        "2 00100  51.6400 208.9163 0006317  69.9862  25.2906 15.493904007" "S" 0) =
      some ((714414 : ℚ) + (5/2 - 1)) := by
  have e2 : natOfDigits ['0', '0', '2'] = 2 := by decide
  have e5 : natOfDigits ['5', '0', '0', '0', '0', '0', '0', '0'] = 50000000 := by decide
  have hd56 : pyFloat (pySlice "1 00100U 24001A   56002.50000000" 20 32) = some ((5 : ℚ)/2) :=
    (pyFloat_eval_decimal _ ['0', '0', '2'] ['5', '0', '0', '0', '0', '0', '0', '0']
      (by decide) (by decide) (by decide) (by decide)).trans (by norm_num [e2, e5])
  have hd57 : pyFloat (pySlice "1 00100U 24001A   57002.50000000" 20 32) = some ((5 : ℚ)/2) :=
    (pyFloat_eval_decimal _ ['0', '0', '2'] ['5', '0', '0', '0', '0', '0', '0', '0']
      (by decide) (by decide) (by decide) (by decide)).trans (by norm_num [e2, e5])
  have hj56 : jan1 2056 = ((750573 : ℕ) : ℚ) := by
    unfold jan1
    norm_num [show Int.toNat 2056 = 2056 from by decide,
              show daysBeforeYear 2056 = 750573 from by decide]
  have hj57 : jan1 1957 = ((714414 : ℕ) : ℚ) := by
    unfold jan1
    norm_num [show Int.toNat 1957 = 1957 from by decide,
              show daysBeforeYear 1957 = 714414 from by decide]
  constructor
  · cases hp : parse_tle_pair "1 00100U 24001A   56002.50000000"
        "2 00100  51.6400 208.9163 0006317  69.9862  25.2906 15.493904007" "S" 0 with
    | none => exact absurd hp (by with_unfolding_all decide)
    | some r =>
        have h := C4_y2k_epoch _ _ "S" 0 r 56 (5/2) hp (by decide) hd56
        rw [Option.map_some', h.2.1 (by norm_num),
            show ((2000 : ℤ) + 56) = 2056 from by norm_num, hj56]
        norm_num
  · cases hp : parse_tle_pair "1 00100U 24001A   57002.50000000"
        "2 00100  51.6400 208.9163 0006317  69.9862  25.2906 15.493904007" "S" 0 with
    | none => exact absurd hp (by with_unfolding_all decide)
    | some r =>
        have h := C4_y2k_epoch _ _ "S" 0 r 57 (5/2) hp (by decide) hd57
        rw [Option.map_some', h.2.2 (by norm_num),
            show ((1900 : ℤ) + 57) = 1957 from by norm_num, hj57]
        norm_num

/-! ### Claim C5: drag-term failure is the only non-fatal one -/

/-- C5: a failure of any required conversion fails the whole record (the
caller receives nothing, never a partial record), while a drag-term
failure alone does not — the record is produced with the drag value
undefined.  The script collapses all record-level failures to a single
`None`; the claim's `DecodeError(FieldInvalid(...))` is modelled by that
failure value. -/
theorem C5_failure_granularity (l1 l2 nm : String) (t : ℚ) :
    (requiredFieldsOk l1 l2 = false → parse_tle_pair l1 l2 nm t = none) ∧
    (requiredFieldsOk l1 l2 = true → epochInRange l1 = true →
      ∃ r, parse_tle_pair l1 l2 nm t = some r ∧
        r.b_star_drag = parse_bstar (pyStrip (pySlice l1 53 61))) := by
  constructor
  · intro h
    cases hp : parse_tle_pair l1 l2 nm t with
    | none => rfl
    | some r =>
        obtain ⟨nid, y, d, incl, ra, ecc, argp, ma, mm, rev,
          h1, h2, h3, h4, h5, h6, h7, h8, h9, h10, _⟩ := parse_tle_pair_some_elim hp
        rw [requiredFieldsOk, h1, h2, h3, h4, h5, h6, h7, h8, h9, h10] at h
        simp at h
  · exact fun h hr => parse_tle_pair_success l1 l2 nm t h hr

set_option maxRecDepth 10000 in
/-- C5 witness: a concrete line pair whose drag-term field is empty (and
hence unparseable) still decodes, with the drag value undefined. -/
theorem C5_failure_granularity_witness :
    requiredFieldsOk "1 00100U 24001A   24002.50000000"
      "2 00100  51.6400 208.9163 0006317  69.9862  25.2906 15.493904007" = true ∧
    Option.map ElementSet.b_star_drag
      (parse_tle_pair "1 00100U 24001A   24002.50000000"
        "2 00100  51.6400 208.9163 0006317  69.9862  25.2906 15.493904007" "S" 0) =
      some none := by
  refine ⟨by with_unfolding_all decide, ?_⟩
  obtain ⟨r, hp, hb⟩ :=
    (C5_failure_granularity "1 00100U 24001A   24002.50000000"
      "2 00100  51.6400 208.9163 0006317  69.9862  25.2906 15.493904007" "S" 0).2
      (by with_unfolding_all decide) (by with_unfolding_all decide)
  rw [hp, Option.map_some', hb]
  with_unfolding_all decide

/-! ### Claim C6: behaviour on truncated input -/

set_option maxRecDepth 10000 in
/-- C6 counterexample: a 32-character line 1 and a 64-character line 2 —
both far shorter than the 68 characters the claim requires — decode
successfully, so short input does not produce a `Truncated` decode
error. -/
theorem C6_counterexample :
    ("1 00100U 24001A   24002.50000000" : String).data.length < 68 ∧
    ("2 00100  51.6400 208.9163 0006317  69.9862  25.2906 15.493904007" :
        String).data.length < 68 ∧
    (parse_tle_pair "1 00100U 24001A   24002.50000000"
      "2 00100  51.6400 208.9163 0006317  69.9862  25.2906 15.493904007"
      "S" 0).isSome = true := by
  with_unfolding_all decide

/-- C6 (amended): the decoder has no length check and only one failure
value; truncation that empties a required slice fails the record (line 1
shorter than 21 characters leaves no day-of-year text, line 2 shorter
than 64 leaves no revolution-number text), while lines shorter than 68
can still decode when every required slice retains parseable text. -/
theorem C6_truncated_input (l1 l2 nm : String) (t : ℚ) :
    (l1.data.length ≤ 20 → parse_tle_pair l1 l2 nm t = none) ∧
    (l2.data.length ≤ 63 → parse_tle_pair l1 l2 nm t = none) := by
  constructor
  · intro hlen
    cases hp : parse_tle_pair l1 l2 nm t with
    | none => rfl
    | some r =>
        obtain ⟨nid, y, d, incl, ra, ecc, argp, ma, mm, rev,
          h1, h2, h3, h4, h5, h6, h7, h8, h9, h10, _⟩ := parse_tle_pair_some_elim hp
        have hsl : pySlice l1 20 32 = String.mk [] := by
          unfold pySlice
          rw [List.drop_of_length_le hlen]
          rfl
        rw [hsl, show pyFloat (String.mk []) = none from rfl] at h3
        cases h3
  · intro hlen
    cases hp : parse_tle_pair l1 l2 nm t with
    | none => rfl
    | some r =>
        obtain ⟨nid, y, d, incl, ra, ecc, argp, ma, mm, rev,
          h1, h2, h3, h4, h5, h6, h7, h8, h9, h10, _⟩ := parse_tle_pair_some_elim hp
        have hsl : pySlice l2 63 68 = String.mk [] := by
          unfold pySlice
          rw [List.drop_of_length_le hlen]
          rfl
        rw [hsl, show pyInt (String.mk []) = none from rfl] at h10
        cases h10

/-- C6 witness: single-character lines decode to nothing. -/
theorem C6_truncated_input_witness :
    parse_tle_pair "1" "2" "S" 0 = none :=
  (C6_truncated_input "1" "2" "S" 0).1 (by decide)

/-! ### Claim C8: eccentricity with implied leading zero -/

set_option maxRecDepth 4000 in
/-- C8 counterexample: an eccentricity field using exponent notation —
accepted by the underlying float conversion — produces an eccentricity
of 1.234 × 10¹¹, far outside [0,1), refuting the claim's unconditional
bound. -/
theorem C8_counterexample :
    Option.map ElementSet.eccentricity
      (parse_tle_pair "1 00100U 24001A   24002.50000000"
        "2 00100  51.6400 208.9163 12345e1  69.9862  25.2906 15.493904007"
        "S" 0) = some ((2469 : ℚ) / 2000) ∧
    ¬ ((2469 : ℚ) / 2000 < 1) := by
  have hecc : pyFloat ("0." ++ pySlice
      "2 00100  51.6400 208.9163 12345e1  69.9862  25.2906 15.493904007" 26 33) =
      some ((2469 : ℚ) / 2000) :=
    (pyFloat_eval_decimal_exp _ ['0'] ['1', '2', '3', '4', '5'] '1'
      (by decide) (by decide) (by decide) (by decide) (by decide)).trans
      (by norm_num [show natOfDigits ['1', '2', '3', '4', '5'] = 12345 from by decide,
                    show natOfDigits ['0'] = 0 from by decide,
                    show digitVal '1' = 1 from by decide])
  refine ⟨?_, by norm_num⟩
  cases hp : parse_tle_pair "1 00100U 24001A   24002.50000000"
      "2 00100  51.6400 208.9163 12345e1  69.9862  25.2906 15.493904007" "S" 0 with
  | none => exact absurd hp (by with_unfolding_all decide)
  | some r =>
      obtain ⟨nid, y, d, incl, ra, ecc, argp, ma, mm, rev,
        h1, h2, h3, h4, h5, h6, h7, h8, h9, h10, hrec⟩ := parse_tle_pair_some_elim hp
      have hv : ecc = (2469 : ℚ) / 2000 := by
        have := hecc.symm.trans h6
        injection this with h
        exact h.symm
      rw [Option.map_some', hrec]
      dsimp only
      rw [hv]

/-- C8 (amended): the eccentricity of a decoded record is the value of
the 7-character column slice behind an implied leading `0.`; whenever
that slice is all digits — the source's format — the value is
`digits / 10^length` and lies in [0,1); a slice smuggling exponent
notation can leave [0,1). -/
theorem C8_eccentricity (l1 l2 nm : String) (t : ℚ) (r : ElementSet)
    (hp : parse_tle_pair l1 l2 nm t = some r)
    (hdig : (pySlice l2 26 33).data.all isDigitChar = true) :
    r.eccentricity =
      (natOfDigits (pySlice l2 26 33).data : ℚ) /
        (10 : ℚ) ^ (pySlice l2 26 33).data.length ∧
    0 ≤ r.eccentricity ∧ r.eccentricity < 1 := by
  obtain ⟨nid, y, d, incl, ra, ecc, argp, ma, mm, rev,
    h1, h2, h3, h4, h5, h6, h7, h8, h9, h10, hrec⟩ := parse_tle_pair_some_elim hp
  have hv : ecc = (natOfDigits (pySlice l2 26 33).data : ℚ) /
      (10 : ℚ) ^ (pySlice l2 26 33).data.length := by
    have := (pyFloat_zero_dot_str hdig).symm.trans h6
    injection this with h
    exact h.symm
  have hecc : r.eccentricity = ecc := by rw [hrec]
  have hlt : (natOfDigits (pySlice l2 26 33).data : ℚ) <
      (10 : ℚ) ^ (pySlice l2 26 33).data.length := by
    have := natOfDigits_lt hdig
    exact_mod_cast this
  have hpow : (0 : ℚ) < (10 : ℚ) ^ (pySlice l2 26 33).data.length :=
    pow_pos (by norm_num) _
  refine ⟨hecc.trans hv, ?_, ?_⟩
  · rw [hecc, hv]
    positivity
  · rw [hecc, hv]
    exact (div_lt_one hpow).mpr hlt

set_option maxRecDepth 10000 in
/-- C8 witness: the all-digit field `"0006317"` yields eccentricity
6317/10⁷, inside [0,1). -/
theorem C8_eccentricity_witness :
    Option.map ElementSet.eccentricity
      (parse_tle_pair "1 00100U 24001A   24002.50000000"
        "2 00100  51.6400 208.9163 0006317  69.9862  25.2906 15.493904007"
        "S" 0) = some ((6317 : ℚ) / 10000000) := by
  cases hp : parse_tle_pair "1 00100U 24001A   24002.50000000"
      "2 00100  51.6400 208.9163 0006317  69.9862  25.2906 15.493904007" "S" 0 with
  | none => exact absurd hp (by with_unfolding_all decide)
  | some r =>
      have h := C8_eccentricity _ _ "S" 0 r hp (by decide)
      rw [Option.map_some', h.1,
          show pySlice "2 00100  51.6400 208.9163 0006317  69.9862  25.2906 15.493904007"
            26 33 = String.mk ['0', '0', '0', '6', '3', '1', '7'] from by decide]
      norm_num [show (String.mk ['0', '0', '0', '6', '3', '1', '7']).data =
                    ['0', '0', '0', '6', '3', '1', '7'] from rfl,
                show natOfDigits ['0', '0', '0', '6', '3', '1', '7'] = 6317 from by decide]

/-! ### Helper lemmas for the reconcilers -/

theorem contains_iff_mem {l : List String} {a : String} :
    l.contains a = true ↔ a ∈ l :=
  List.elem_iff

theorem dropDup_subset :
    ∀ (l : List SatelliteDimension) (seen : List ℤ) (d : SatelliteDimension),
      d ∈ dropDupByNoradId l seen → d ∈ l := by
  intro l
  induction l with
  | nil => intro seen d h; cases h
  | cons x t ih =>
      intro seen d h
      unfold dropDupByNoradId at h
      by_cases hx : x.norad_id ∈ seen
      · rw [if_pos hx] at h
        exact List.mem_cons_of_mem _ (ih _ _ h)
      · rw [if_neg hx] at h
        rcases List.mem_cons.mp h with rfl | h2
        · exact List.mem_cons_self _ _
        · exact List.mem_cons_of_mem _ (ih _ _ h2)

theorem dropDup_nodup :
    ∀ (l : List SatelliteDimension) (seen : List ℤ),
      (∀ d ∈ dropDupByNoradId l seen, d.norad_id ∉ seen) ∧
      ((dropDupByNoradId l seen).map SatelliteDimension.norad_id).Nodup := by
  intro l
  induction l with
  | nil =>
      intro seen
      exact ⟨fun d h => absurd h (by simp [dropDupByNoradId]), by simp [dropDupByNoradId]⟩
  | cons x t ih =>
      intro seen
      unfold dropDupByNoradId
      by_cases hx : x.norad_id ∈ seen
      · rw [if_pos hx]
        exact ih seen
      · rw [if_neg hx]
        constructor
        · intro d hd
          rcases List.mem_cons.mp hd with rfl | hd2
          · exact hx
          · intro hmem
            exact (ih (x.norad_id :: seen)).1 d hd2 (List.mem_cons_of_mem _ hmem)
        · simp only [List.map_cons, List.nodup_cons]
          refine ⟨fun hmem => ?_, (ih _).2⟩
          obtain ⟨d, hd, hid⟩ := List.mem_map.mp hmem
          exact (ih (x.norad_id :: seen)).1 d hd (hid ▸ List.mem_cons_self _ _)

theorem dropDup_keeps_first :
    ∀ (l : List SatelliteDimension) (seen : List ℤ) (k : ℤ) (d : SatelliteDimension),
      k ∉ seen → l.find? (fun x => decide (x.norad_id = k)) = some d →
      d ∈ dropDupByNoradId l seen := by
  intro l
  induction l with
  | nil => intro seen k d _ h; cases h
  | cons x t ih =>
      intro seen k d hk hf
      rw [List.find?_cons] at hf
      by_cases hx : x.norad_id = k
      · rw [show decide (x.norad_id = k) = true from decide_eq_true hx] at hf
        injection hf with hf
        subst hf
        unfold dropDupByNoradId
        rw [if_neg (hx ▸ hk)]
        exact List.mem_cons_self _ _
      · rw [show decide (x.norad_id = k) = false from decide_eq_false hx] at hf
        unfold dropDupByNoradId
        by_cases hxs : x.norad_id ∈ seen
        · rw [if_pos hxs]
          exact ih seen k d hk hf
        · rw [if_neg hxs]
          refine List.mem_cons_of_mem _ (ih (x.norad_id :: seen) k d ?_ hf)
          intro hmem
          rcases List.mem_cons.mp hmem with rfl | h2
          · exact hx rfl
          · exact hk h2

theorem find?_filter_of_imp {α : Type} {q P : α → Bool} (l : List α)
    (h : ∀ x, q x = true → P x = true) : (l.filter P).find? q = l.find? q := by
  induction l with
  | nil => rfl
  | cons x t ih =>
      rw [List.filter_cons]
      by_cases hP : P x = true
      · rw [if_pos hP, List.find?_cons, List.find?_cons]
        cases hq : q x
        · exact ih
        · rfl
      · rw [if_neg hP, ih, List.find?_cons]
        have hq : q x = false := by
          cases hqx : q x
          · rfl
          · exact absurd (h x hqx) hP
        rw [hq]

/-! ### Claim C1: the Fact Reconciler drops exactly the windowed keys -/

/-- C1: the fact join key is built on both sides as the string form of
the catalog id, an underscore, and the canonical timestamp string; a
batch record whose key occurs among the window keys is never in the
output, and one whose key is absent always is. -/
theorem C1_fact_reconciler (records : List ElementSet) (window : List (ℤ × ℚ))
    (r : ElementSet) (hr : r ∈ records) :
    (factKey r.norad_id r.epoch_utc ∈ window.map (fun p => factKey p.1 p.2) →
      r ∉ select_new_facts records window) ∧
    (factKey r.norad_id r.epoch_utc ∉ window.map (fun p => factKey p.1 p.2) →
      r ∈ select_new_facts records window) := by
  unfold select_new_facts
  constructor
  · intro hin hmem
    have h2 := (List.mem_filter.mp hmem).2
    rw [Bool.not_eq_true'] at h2
    have h3 := contains_iff_mem.mpr hin
    rw [h2] at h3
    exact Bool.noConfusion h3
  · intro hnin
    refine List.mem_filter.mpr ⟨hr, ?_⟩
    cases hc : (window.map fun p => factKey p.1 p.2).contains
        (factKey r.norad_id r.epoch_utc)
    · rfl
    · exact absurd (contains_iff_mem.mp hc) hnin

/-- C1 witness: a record whose (catalog id, epoch) key matches the
single window entry is dropped from the output. -/
theorem C1_fact_reconciler_witness :
    mkSat 100 "A" (jan1 2024) ∉
      select_new_facts [mkSat 100 "A" (jan1 2024)] [(100, jan1 2024)] :=
  (C1_fact_reconciler [mkSat 100 "A" (jan1 2024)] [(100, jan1 2024)]
      (mkSat 100 "A" (jan1 2024)) (by simp)).1
    (by with_unfolding_all decide)

/-! ### Claim C2: the Dimension Reconciler -/

/-- C2: the dimension output contains no catalog id from the store, no
two of its rows share a catalog id, and for every id not in the store
the projection of the batch's first record with that id is in the
output (first occurrence wins). -/
theorem C2_dimension_reconciler (records : List ElementSet) (existing : List ℤ) :
    (∀ dim ∈ select_new_entities records existing, dim.norad_id ∉ existing) ∧
    ((select_new_entities records existing).map SatelliteDimension.norad_id).Nodup ∧
    (∀ (id : ℤ) (s : ElementSet), id ∉ existing →
      records.find? (fun r => decide (r.norad_id = id)) = some s →
      toDimension s ∈ select_new_entities records existing) := by
  refine ⟨?_, ?_, ?_⟩
  · intro dim hdim
    have hmem := dropDup_subset _ _ _ hdim
    obtain ⟨r, hrf, rfl⟩ := List.mem_map.mp hmem
    exact of_decide_eq_true (List.mem_filter.mp hrf).2
  · exact (dropDup_nodup _ []).2
  · intro id s hid hfind
    apply dropDup_keeps_first _ [] id _ (by simp)
    rw [List.find?_map,
        show ((fun dim : SatelliteDimension => decide (dim.norad_id = id)) ∘ toDimension) =
          (fun r : ElementSet => decide (r.norad_id = id)) from rfl,
        find?_filter_of_imp _ (fun x hx =>
          decide_eq_true ((of_decide_eq_true hx) ▸ hid)), hfind]
    rfl

/-- C2 witness: existing ids {100} and batch catalog ids
[100, 200, 200, 300]: the first 200-record's projection (name "B") and
the 300-record's projection are in the output. -/
theorem C2_dimension_reconciler_witness :
    toDimension (mkSat 200 "B" 0) ∈
      select_new_entities
        [mkSat 100 "A" 0, mkSat 200 "B" 0, mkSat 200 "C" 0, mkSat 300 "D" 0] [100] ∧
    toDimension (mkSat 300 "D" 0) ∈
      select_new_entities
        [mkSat 100 "A" 0, mkSat 200 "B" 0, mkSat 200 "C" 0, mkSat 300 "D" 0] [100] :=
  ⟨(C2_dimension_reconciler
      [mkSat 100 "A" 0, mkSat 200 "B" 0, mkSat 200 "C" 0, mkSat 300 "D" 0] [100]).2.2
      200 (mkSat 200 "B" 0) (by decide) (by with_unfolding_all decide),
   (C2_dimension_reconciler
      [mkSat 100 "A" 0, mkSat 200 "B" 0, mkSat 200 "C" 0, mkSat 300 "D" 0] [100]).2.2
      300 (mkSat 300 "D" 0) (by decide) (by with_unfolding_all decide)⟩

/-! ### Claim C7: the Batch Parser -/

/-- C7: the batch loop attempts exactly ⌊n/3⌋ decodes on consecutive
(name, line1, line2) triplets; each group contributes its decoded record
(or nothing) in front of the rest of the batch in input order, so one
failure never aborts later groups; a trailing group of fewer than three
lines is silently discarded. -/
theorem C7_batch_grouping (t : ℚ) :
    (∀ lines : List String, (tripleGroups lines).length = lines.length / 3) ∧
    (∀ (name l1 l2 : String) (rest : List String),
      parse_batch (name :: l1 :: l2 :: rest) t =
        (parse_tle_pair (pyStrip l1) (pyStrip l2) (pyStrip name) t).toList ++
          parse_batch rest t) ∧
    (∀ lines : List String, lines.length < 3 →
      parse_batch lines t = [] ∧ tripleGroups lines = []) := by
  refine ⟨?_, ?_, ?_⟩
  · intro lines
    induction lines using tripleGroups.induct with
    | case1 a b c rest ih =>
        simp only [tripleGroups, List.length_cons, ih]
        omega
    | case2 x hx =>
        match x, hx with
        | [], _ => simp [tripleGroups]
        | [a], _ => simp [tripleGroups]
        | [a, b], _ => simp [tripleGroups]
        | (a :: b :: c :: rest), hx => exact absurd rfl (hx a b c rest)
  · intro name l1 l2 rest
    cases h : parse_tle_pair (pyStrip l1) (pyStrip l2) (pyStrip name) t <;>
      simp [parse_batch, tripleGroups, List.filterMap_cons, h]
  · intro lines hlen
    match lines, hlen with
    | [], _ => exact ⟨rfl, rfl⟩
    | [a], _ => exact ⟨by simp [parse_batch, tripleGroups], by simp [tripleGroups]⟩
    | [a, b], _ => exact ⟨by simp [parse_batch, tripleGroups], by simp [tripleGroups]⟩
    | (a :: b :: c :: rest), h =>
        exact absurd h (by simp only [List.length_cons]; omega)

/-- C7 witness: a payload of three complete triplets and one stray
trailing line is grouped into exactly three decode attempts, and a
payload consisting only of the stray line yields nothing. -/
theorem C7_batch_grouping_witness :
    (tripleGroups ["n1", "l1", "l2", "n2", "l3", "l4", "n3", "l5", "l6", "stray"]).length = 3 ∧
    parse_batch ["stray"] 0 = [] := by
  constructor
  · rw [(C7_batch_grouping 0).1]
    decide
  · exact ((C7_batch_grouping 0).2.2 ["stray"] (by decide)).1

/-! ### Claim C9: failure isolation between the two reconcilers -/

/-- C9 counterexample: with a nonempty batch, a failing dimension-id
query and a perfectly healthy recent-window query, the cycle performs
neither persistence step — the dimension query failure (outside any
`try`) aborts the fact stage too, contradicting the claimed
independence. -/
theorem C9_counterexample :
    run_ingestion
      { dim_query := Except.error (), fact_window_query := Except.ok [] }
      [mkSat 100 "A" 0] =
      { dim_persisted := none, fact_persisted := none } := rfl

/-- C9 (amended): a recent-window query failure aborts only fact
persistence (dimension persistence has already happened, inside no
`try`), but a dimension-query failure aborts everything after it,
including the whole fact stage. -/
theorem C9_stage_isolation (records : List ElementSet) (existing : List ℤ)
    (w : Except Unit (List (ℤ × ℚ))) (hne : records ≠ []) :
    run_ingestion
      { dim_query := Except.ok existing, fact_window_query := Except.error () }
      records =
      { dim_persisted := some (select_new_entities records existing),
        fact_persisted := none } ∧
    run_ingestion { dim_query := Except.error (), fact_window_query := w } records =
      { dim_persisted := none, fact_persisted := none } := by
  have hempty : records.isEmpty = false := by
    cases records with
    | nil => exact absurd rfl hne
    | cons _ _ => rfl
  unfold run_ingestion
  rw [hempty]
  exact ⟨rfl, by cases w <;> rfl⟩

/-- C9 witness: the window-query-failure half at a concrete nonempty
batch — dimension rows are persisted, fact persistence is skipped. -/
theorem C9_stage_isolation_witness :
    run_ingestion
      { dim_query := Except.ok [], fact_window_query := Except.error () }
      [mkSat 100 "A" 0] =
      { dim_persisted := some (select_new_entities [mkSat 100 "A" 0] []),
        fact_persisted := none } :=
  (C9_stage_isolation [mkSat 100 "A" 0] [] (Except.ok []) (by simp)).1

/-! ### Claim C10: no intra-batch dedup in the Fact Reconciler -/

/-- C10: records are filtered only against the window snapshot, never
against each other — a record whose key is not in the window keeps every
one of its occurrences in the output. -/
theorem C10_no_intra_batch_dedup (records : List ElementSet)
    (window : List (ℤ × ℚ)) (r : ElementSet)
    (h : factKey r.norad_id r.epoch_utc ∉ window.map (fun p => factKey p.1 p.2)) :
    (select_new_facts records window).count r = records.count r := by
  unfold select_new_facts
  apply List.count_filter
  cases hc : (window.map fun p => factKey p.1 p.2).contains
      (factKey r.norad_id r.epoch_utc)
  · rfl
  · exact absurd (contains_iff_mem.mp hc) h

/-- C10 witness: a batch holding the same record twice, against an empty
window, keeps both occurrences. -/
theorem C10_no_intra_batch_dedup_witness :
    (select_new_facts [mkSat 100 "A" 0, mkSat 100 "A" 0] []).count (mkSat 100 "A" 0) = 2 := by
  rw [C10_no_intra_batch_dedup [mkSat 100 "A" 0, mkSat 100 "A" 0] []
      (mkSat 100 "A" 0) (by simp)]
  with_unfolding_all decide

end Celestrak

